import Mathlib

/-!
Verification of the interactive cubic Bézier / spring-physics simulation
(`beizure.js`).  The arithmetic of the source (JavaScript float64) is
embedded over exact fields: the simulation side over `ℚ` (executable),
the analytic side (square roots, derivatives) over `ℝ`.
-/

set_option maxHeartbeats 1000000
set_option maxRecDepth 100000

/-- 2D vector value type, embedding the source's `Vector2` class
(`beizure.js` lines 26-53), polymorphic in the scalar field so that the
same definition serves the exact `ℚ` simulation and the `ℝ` analysis. -/
@[ext]
structure Vector2 (K : Type) where
  x : K
  y : K
deriving DecidableEq, Repr

/-- `Vector2.add` (`beizure.js` line 32). -/
def Vector2.add {K : Type} [CommRing K] (a b : Vector2 K) : Vector2 K :=
  ⟨a.x + b.x, a.y + b.y⟩

/-- `Vector2.subtract` (`beizure.js` line 36). -/
def Vector2.subtract {K : Type} [CommRing K] (a b : Vector2 K) : Vector2 K :=
  ⟨a.x - b.x, a.y - b.y⟩

/-- `Vector2.multiply` (scalar multiplication, `beizure.js` line 40). -/
def Vector2.multiply {K : Type} [CommRing K] (a : Vector2 K) (scalar : K) : Vector2 K :=
  ⟨a.x * scalar, a.y * scalar⟩

/-- `Vector2.length` (`beizure.js` line 44): `Math.sqrt(x*x + y*y)`,
embedded with the real square root. -/
noncomputable def Vector2.length (v : Vector2 ℝ) : ℝ :=
  Real.sqrt (v.x * v.x + v.y * v.y)

/-- `Vector2.normalize` (`beizure.js` lines 48-52): returns `(0,0)` when
the length is `0`, otherwise divides both components by the length. -/
noncomputable def Vector2.normalize (v : Vector2 ℝ) : Vector2 ℝ :=
  if v.length = 0 then ⟨0, 0⟩ else ⟨v.x / v.length, v.y / v.length⟩

/-- Cubic Bézier evaluation `bezierPoint(t, p0, p1, p2, p3)`
(`beizure.js` lines 56-67). -/
def bezierPoint {K : Type} [CommRing K] (t : K) (p0 p1 p2 p3 : Vector2 K) : Vector2 K :=
  let t1 := 1 - t
  let t1_2 := t1 * t1
  let t1_3 := t1_2 * t1
  let t_2 := t * t
  let t_3 := t_2 * t
  ⟨t1_3 * p0.x + 3 * t1_2 * t * p1.x + 3 * t1 * t_2 * p2.x + t_3 * p3.x,
   t1_3 * p0.y + 3 * t1_2 * t * p1.y + 3 * t1 * t_2 * p2.y + t_3 * p3.y⟩

/-- Bézier tangent `bezierTangent(t, p0, p1, p2, p3)` (`beizure.js`
lines 70-79). -/
def bezierTangent {K : Type} [CommRing K] (t : K) (p0 p1 p2 p3 : Vector2 K) : Vector2 K :=
  let t1 := 1 - t
  let t1_2 := t1 * t1
  let t_2 := t * t
  ⟨3 * t1_2 * (p1.x - p0.x) + 6 * t1 * t * (p2.x - p1.x) + 3 * t_2 * (p3.x - p2.x),
   3 * t1_2 * (p1.y - p0.y) + 6 * t1 * t * (p2.y - p1.y) + 3 * t_2 * (p3.y - p2.y)⟩

/-- The spring-driven control point (`beizure.js` lines 82-115). -/
structure SpringPoint where
  position : Vector2 ℚ
  velocity : Vector2 ℚ
  target : Vector2 ℚ
  fixed : Bool
  springConstant : ℚ
  damping : ℚ
deriving DecidableEq, Repr

/-- The `SpringPoint` constructor (`beizure.js` lines 83-92): position and
target start at `(x, y)`, velocity at `(0, 0)`, with the tuned constants
`springConstant = 0.15` and `damping = 0.85`. -/
def mkSpringPoint (x y : ℚ) (fixed : Bool) : SpringPoint :=
  { position := ⟨x, y⟩
    velocity := ⟨0, 0⟩
    target := ⟨x, y⟩
    fixed := fixed
    springConstant := 0.15
    damping := 0.85 }

/-- `SpringPoint.update(deltaTime)` (`beizure.js` lines 94-110): no-op when
`fixed`; otherwise one semi-implicit Euler step (velocity first, then
position from the new velocity). -/
def SpringPoint.update (s : SpringPoint) (deltaTime : ℚ) : SpringPoint :=
  if s.fixed then s
  else
    let displacement := s.position.subtract s.target
    let springForce := displacement.multiply (-s.springConstant)
    let dampingForce := s.velocity.multiply (-s.damping)
    let acceleration := springForce.add dampingForce
    let velocity := s.velocity.add (acceleration.multiply deltaTime)
    let position := s.position.add (velocity.multiply deltaTime)
    { s with velocity := velocity, position := position }

/-- `SpringPoint.setTarget(x, y)` (`beizure.js` lines 112-114): replaces the
target unconditionally, `fixed` or not. -/
def SpringPoint.setTarget (s : SpringPoint) (x y : ℚ) : SpringPoint :=
  { s with target := ⟨x, y⟩ }

/-- C1: one `update(deltaTime)` call on a non-fixed point performs the
semi-implicit Euler step: the new velocity is
`velocity + (-springConstant*(position - target) - damping*velocity) * deltaTime`,
and the new position is `position + (new velocity) * deltaTime`; the other
fields are untouched. -/
theorem springPoint_update_semi_implicit (s : SpringPoint) (deltaTime : ℚ)
    (h : s.fixed = false) :
    (s.update deltaTime).velocity =
      ⟨s.velocity.x + (-s.springConstant * (s.position.x - s.target.x)
          - s.damping * s.velocity.x) * deltaTime,
       s.velocity.y + (-s.springConstant * (s.position.y - s.target.y)
          - s.damping * s.velocity.y) * deltaTime⟩ ∧
    (s.update deltaTime).position =
      ⟨s.position.x + (s.update deltaTime).velocity.x * deltaTime,
       s.position.y + (s.update deltaTime).velocity.y * deltaTime⟩ ∧
    (s.update deltaTime).target = s.target ∧
    (s.update deltaTime).fixed = s.fixed ∧
    (s.update deltaTime).springConstant = s.springConstant ∧
    (s.update deltaTime).damping = s.damping := by
  refine ⟨?_, ?_, ?_, ?_, ?_, ?_⟩ <;>
    simp only [SpringPoint.update, h, Bool.false_eq_true, if_false,
      Vector2.subtract, Vector2.multiply, Vector2.add] <;>
    first
      | rfl
      | (ext <;> ring)

/-- Witness for C1 at a concrete non-fixed spring point. -/
theorem springPoint_update_semi_implicit_witness :
    ((mkSpringPoint 10 20 false).fixed = false) ∧
    ((mkSpringPoint 10 20 false).update 2).target = ⟨10, 20⟩ := by
  refine ⟨by decide, ((springPoint_update_semi_implicit (mkSpringPoint 10 20 false) 2
    (by decide)).2.2.1).trans (by decide)⟩

/-- C2: the cubic Bézier evaluation interpolates its endpoints: at `t = 0`
it returns `p0` exactly and at `t = 1` it returns `p3` exactly. -/
theorem bezierPoint_endpoint_interpolation (p0 p1 p2 p3 : Vector2 ℚ) :
    bezierPoint 0 p0 p1 p2 p3 = p0 ∧ bezierPoint 1 p0 p1 p2 p3 = p3 := by
  constructor <;> (ext <;> simp [bezierPoint])

/-- C8 counterexample: with `p0=(0,0), p1=(0,100), p2=(100,100), p3=(100,0)`,
evaluation at `t = 0.5` returns `(50, 75)`, not `(50, 50)` as the claim
states (the y-weights `3/8·100 + 3/8·100` sum to 75). -/
theorem bezierPoint_scurve_midpoint_cex :
    bezierPoint (1/2 : ℚ) ⟨0, 0⟩ ⟨0, 100⟩ ⟨100, 100⟩ ⟨100, 0⟩ ≠ ⟨50, 50⟩ := by
  simp only [bezierPoint, ne_eq, Vector2.mk.injEq, not_and]
  norm_num

/-- C8 amended: with all four control points `(0,0)` the evaluation returns
`(0,0)` for every `t`; with `p0=(0,0), p1=(0,100), p2=(100,100), p3=(100,0)`
the evaluation at `t = 0.5` returns exactly `(50, 75)`. -/
theorem bezierPoint_scenarios_amended :
    (∀ t : ℚ, bezierPoint t ⟨0, 0⟩ ⟨0, 0⟩ ⟨0, 0⟩ ⟨0, 0⟩ = ⟨0, 0⟩) ∧
    bezierPoint (1/2 : ℚ) ⟨0, 0⟩ ⟨0, 100⟩ ⟨100, 100⟩ ⟨100, 0⟩ = ⟨50, 75⟩ := by
  constructor
  · intro t
    ext <;> simp [bezierPoint]
  · ext <;> (simp only [bezierPoint, Vector2.mk.injEq]; norm_num)

/-- One step of the command alphabet a client can apply to a `SpringPoint`
after construction: an `update(deltaTime)` call or a `setTarget(x, y)` call. -/
inductive SpringCmd where
  | update (deltaTime : ℚ)
  | setTarget (x y : ℚ)
deriving DecidableEq, Repr

/-- Apply a finite sequence of `update` / `setTarget` calls to a spring
point, first command first. -/
def runCmds (s : SpringPoint) : List SpringCmd → SpringPoint
  | [] => s
  | SpringCmd.update dt :: cs => runCmds (s.update dt) cs
  | SpringCmd.setTarget x y :: cs => runCmds (s.setTarget x y) cs

/-- Auxiliary: any command sequence leaves position and velocity of a spring
point whose `fixed` flag is `true` unchanged. -/
theorem runCmds_fixed (cmds : List SpringCmd) (s : SpringPoint)
    (h : s.fixed = true) :
    (runCmds s cmds).position = s.position ∧
      (runCmds s cmds).velocity = s.velocity := by
  induction cmds generalizing s with
  | nil => exact ⟨rfl, rfl⟩
  | cons c cs ih =>
    cases c with
    | update dt =>
      have hu : s.update dt = s := by simp [SpringPoint.update, h]
      simpa [runCmds, hu] using ih s h
    | setTarget x y =>
      have := ih (s.setTarget x y) (by simp [SpringPoint.setTarget, h])
      simpa [runCmds, SpringPoint.setTarget] using this

/-- C4: a `SpringPoint` constructed with `fixed = true` has, after any finite
interleaving of `update(deltaTime)` and `setTarget(x, y)` calls, exactly the
position `(x, y)` and velocity `(0, 0)` it was constructed with. -/
theorem springPoint_fixed_invariance (x y : ℚ) (cmds : List SpringCmd) :
    (runCmds (mkSpringPoint x y true) cmds).position = ⟨x, y⟩ ∧
      (runCmds (mkSpringPoint x y true) cmds).velocity = ⟨0, 0⟩ := by
  simpa [mkSpringPoint] using runCmds_fixed cmds (mkSpringPoint x y true) rfl

/-- The per-tick time step (`beizure.js` line 273):
`Math.min((currentTime - lastTime) / 16.67, 2)`. -/
def computeDeltaTime (currentTime lastTime : ℚ) : ℚ :=
  min ((currentTime - lastTime) / 16.67) 2

/-- C5: the time step the loop hands to `SpringPoint.update` is the elapsed
real time divided by the nominal frame interval 16.67 ms whenever that ratio
is at most 2, and is capped at 2 otherwise; in particular an elapsed time of
10 nominal frames yields 2, not 10. -/
theorem updatePhysics_deltaTime_clamp (currentTime lastTime : ℚ) :
    (currentTime - lastTime ≤ 2 * 16.67 →
      computeDeltaTime currentTime lastTime = (currentTime - lastTime) / 16.67) ∧
    (2 * 16.67 ≤ currentTime - lastTime →
      computeDeltaTime currentTime lastTime = 2) ∧
    computeDeltaTime (lastTime + 10 * 16.67) lastTime = 2 := by
  have hpos : (0 : ℚ) < 16.67 := by norm_num
  refine ⟨fun h => min_eq_left ?_, fun h => min_eq_right ?_, ?_⟩
  · rw [div_le_iff₀ hpos]
    linarith
  · rw [le_div_iff₀ hpos]
    linarith
  · show min ((lastTime + 10 * 16.67 - lastTime) / 16.67) 2 = 2
    have h10 : lastTime + 10 * (16.67 : ℚ) - lastTime = 10 * 16.67 := by ring
    rw [h10]
    norm_num

/-- Witness for C5: with `lastTime = 0`, an elapsed time of one nominal frame
gives `deltaTime = 1`, and ten nominal frames give the cap 2. -/
theorem updatePhysics_deltaTime_clamp_witness :
    computeDeltaTime 16.67 0 = 1 ∧ computeDeltaTime (0 + 10 * 16.67) 0 = 2 := by
  constructor
  · have h := (updatePhysics_deltaTime_clamp 16.67 0).1 (by norm_num)
    rw [h]
    norm_num
  · exact (updatePhysics_deltaTime_clamp (0 + 10 * 16.67) 0).2.1 (by norm_num)

/-- Input mode (`beizure.js` line 5): `'mouse'` or `'gyro'`. -/
inductive Mode where
  | mouse
  | gyro
deriving DecidableEq, Repr

/-- Latest device-orientation sample (`beizure.js` line 130). -/
structure GyroData where
  beta : ℚ
  gamma : ℚ
  alpha : ℚ
deriving DecidableEq, Repr

/-- The mutable state the tick callback `updatePhysics` reads and writes
(`beizure.js` lines 118-131 and 266-304): the four control points, the
current input mode, the latest pointer and orientation samples, whether an
orientation sample has arrived (`gyroActive`), and the canvas size. -/
structure SimState where
  points0 : SpringPoint
  points1 : SpringPoint
  points2 : SpringPoint
  points3 : SpringPoint
  mode : Mode
  mousePos : Vector2 ℚ
  gyroData : GyroData
  gyroActive : Bool
  width : ℚ
  height : ℚ
deriving DecidableEq, Repr

/-- The target-assignment and physics part of one `updatePhysics` tick
(`beizure.js` lines 284-303), with the time step as a parameter (its
computation from timestamps is `computeDeltaTime`): in mouse mode the two
dynamic points' targets follow the pointer offset; in gyro mode they follow
the tilt offsets, but only when an orientation sample has arrived
(`gyroActive`); then every point gets one `update(deltaTime)` call. -/
def updatePhysicsStep (st : SimState) (deltaTime : ℚ) : SimState :=
  let st1 :=
    match st.mode with
    | Mode.mouse =>
      let centerX := st.width / 2
      let centerY := st.height / 2
      let offsetX := (st.mousePos.x - centerX) * 0.3
      let offsetY := (st.mousePos.y - centerY) * 0.3
      { st with
        points1 := st.points1.setTarget (st.width * 0.4 + offsetX) (st.height * 0.3 + offsetY)
        points2 := st.points2.setTarget (st.width * 0.6 - offsetX) (st.height * 0.7 - offsetY) }
    | Mode.gyro =>
      if st.gyroActive then
        let offsetX := (st.gyroData.gamma / 90) * 150
        let offsetY := ((st.gyroData.beta - 90) / 90) * 150
        { st with
          points1 := st.points1.setTarget (st.width * 0.4 + offsetX) (st.height * 0.3 + offsetY)
          points2 := st.points2.setTarget (st.width * 0.6 - offsetX) (st.height * 0.7 - offsetY) }
      else st
  { st1 with
    points0 := st1.points0.update deltaTime
    points1 := st1.points1.update deltaTime
    points2 := st1.points2.update deltaTime
    points3 := st1.points3.update deltaTime }

/-- Run one tick per entry of `deltaTimes`, first entry first. -/
def runTicks (st : SimState) : List ℚ → SimState
  | [] => st
  | dt :: dts => runTicks (updatePhysicsStep st dt) dts

/-- Auxiliary: `update` never changes the stored target. -/
theorem springPoint_update_target (s : SpringPoint) (dt : ℚ) :
    (s.update dt).target = s.target := by
  by_cases h : s.fixed <;> simp [SpringPoint.update, h]

/-- Auxiliary: a tick in gyro mode with no orientation sample received
changes no target and leaves mode and `gyroActive` as they were. -/
theorem updatePhysicsStep_gyro_inactive (st : SimState) (dt : ℚ)
    (hm : st.mode = Mode.gyro) (hg : st.gyroActive = false) :
    (updatePhysicsStep st dt).points1.target = st.points1.target ∧
    (updatePhysicsStep st dt).points2.target = st.points2.target ∧
    (updatePhysicsStep st dt).mode = Mode.gyro ∧
    (updatePhysicsStep st dt).gyroActive = false := by
  simp [updatePhysicsStep, hm, hg, springPoint_update_target]

/-- C6: starting from any state whose last targets were set in pointer mode,
switching the mode to `gyro` while no orientation sample has been received
(`gyroActive = false`) leaves the targets of P1 and P2 unchanged across any
number of subsequent ticks. -/
theorem modeSwitch_preserves_targets (st : SimState) (dts : List ℚ)
    (hg : st.gyroActive = false) :
    (runTicks { st with mode := Mode.gyro } dts).points1.target
        = st.points1.target ∧
      (runTicks { st with mode := Mode.gyro } dts).points2.target
        = st.points2.target := by
  suffices h : ∀ (dts : List ℚ) (s : SimState), s.mode = Mode.gyro →
      s.gyroActive = false →
      (runTicks s dts).points1.target = s.points1.target ∧
        (runTicks s dts).points2.target = s.points2.target by
    exact h dts { st with mode := Mode.gyro } rfl hg
  intro dts
  induction dts with
  | nil => exact fun s _ _ => ⟨rfl, rfl⟩
  | cons dt dts ih =>
    intro s hm hgf
    obtain ⟨h1, h2, h3, h4⟩ := updatePhysicsStep_gyro_inactive s dt hm hgf
    obtain ⟨ih1, ih2⟩ := ih (updatePhysicsStep s dt) h3 h4
    exact ⟨by rw [runTicks, ih1, h1], by rw [runTicks, ih2, h2]⟩

/-- Witness for C6 at a concrete state: three ticks in gyro mode with no
orientation sample leave the pointer-derived targets of P1 and P2 intact. -/
theorem modeSwitch_preserves_targets_witness :
    (runTicks
        { points0 := mkSpringPoint 160 250 true
          points1 := mkSpringPoint 320 150 false
          points2 := mkSpringPoint 480 350 false
          points3 := mkSpringPoint 640 250 true
          mode := Mode.gyro
          mousePos := ⟨400, 250⟩
          gyroData := ⟨0, 0, 0⟩
          gyroActive := false
          width := 800
          height := 500 } [1, 2, 1]).points1.target = ⟨320, 150⟩ := by
  have h := (modeSwitch_preserves_targets
    { points0 := mkSpringPoint 160 250 true
      points1 := mkSpringPoint 320 150 false
      points2 := mkSpringPoint 480 350 false
      points3 := mkSpringPoint 640 250 true
      mode := Mode.mouse
      mousePos := ⟨400, 250⟩
      gyroData := ⟨0, 0, 0⟩
      gyroActive := false
      width := 800
      height := 500 } [1, 2, 1] rfl).1
  simpa [mkSpringPoint] using h

/-- C10: whenever a tick actually assigns new targets to the two dynamic
points — in mouse mode always, in gyro mode once an orientation sample has
arrived — the two assigned targets are point-reflections of each other
through the viewport center: their vector sum is `(width, height)`. -/
theorem targets_mirror_viewport_center (st : SimState) (dt : ℚ)
    (h : st.mode = Mode.mouse ∨ (st.mode = Mode.gyro ∧ st.gyroActive = true)) :
    ((updatePhysicsStep st dt).points1.target).add
        ((updatePhysicsStep st dt).points2.target) = ⟨st.width, st.height⟩ := by
  rcases h with hm | ⟨hm, hg⟩
  · simp only [updatePhysicsStep, hm, springPoint_update_target,
      SpringPoint.setTarget, Vector2.add]
    ext <;> ring
  · simp only [updatePhysicsStep, hm, hg, if_true, springPoint_update_target,
      SpringPoint.setTarget, Vector2.add]
    ext <;> ring

/-- Witness for C10: a concrete mouse-mode tick yields targets summing to
`(width, height) = (800, 500)`. -/
theorem targets_mirror_viewport_center_witness :
    ((updatePhysicsStep
        { points0 := mkSpringPoint 160 250 true
          points1 := mkSpringPoint 320 150 false
          points2 := mkSpringPoint 480 350 false
          points3 := mkSpringPoint 640 250 true
          mode := Mode.mouse
          mousePos := ⟨500, 300⟩
          gyroData := ⟨0, 0, 0⟩
          gyroActive := false
          width := 800
          height := 500 } 1).points1.target).add
      ((updatePhysicsStep
        { points0 := mkSpringPoint 160 250 true
          points1 := mkSpringPoint 320 150 false
          points2 := mkSpringPoint 480 350 false
          points3 := mkSpringPoint 640 250 true
          mode := Mode.mouse
          mousePos := ⟨500, 300⟩
          gyroData := ⟨0, 0, 0⟩
          gyroActive := false
          width := 800
          height := 500 } 1).points2.target) = ⟨800, 500⟩ :=
  targets_mirror_viewport_center _ 1 (Or.inl rfl)

/-- C7: the `Vector2` operations are total: `add`, `subtract` and `multiply`
are componentwise on every input; the length is the nonnegative Euclidean
norm, zero exactly on the zero vector; and `normalize` handles the
length-zero case by returning `(0, 0)` instead of dividing, while on every
vector of nonzero length it takes the (safe) division branch. -/
theorem vector2_total_normalize_guard (a b v : Vector2 ℝ) (k : ℝ) :
    a.add b = ⟨a.x + b.x, a.y + b.y⟩ ∧
    a.subtract b = ⟨a.x - b.x, a.y - b.y⟩ ∧
    a.multiply k = ⟨a.x * k, a.y * k⟩ ∧
    0 ≤ v.length ∧
    (v.length = 0 ↔ v = ⟨0, 0⟩) ∧
    (v.length = 0 → v.normalize = ⟨0, 0⟩) ∧
    (v.length ≠ 0 → v.normalize = ⟨v.x / v.length, v.y / v.length⟩) := by
  have hnn : 0 ≤ v.x * v.x + v.y * v.y :=
    add_nonneg (mul_self_nonneg _) (mul_self_nonneg _)
  have hlen : v.length = 0 ↔ v = ⟨0, 0⟩ := by
    rw [Vector2.length, Real.sqrt_eq_zero hnn]
    constructor
    · intro h
      have hx : v.x = 0 := by nlinarith [mul_self_nonneg v.x, mul_self_nonneg v.y]
      have hy : v.y = 0 := by nlinarith [mul_self_nonneg v.x, mul_self_nonneg v.y]
      ext <;> assumption
    · intro h
      rw [h]
      norm_num
  refine ⟨rfl, rfl, rfl, Real.sqrt_nonneg _, hlen, fun h => ?_, fun h => ?_⟩
  · rw [Vector2.normalize, if_pos h]
  · rw [Vector2.normalize, if_neg h]

/-- Witness for C7: `normalize (0, 0) = (0, 0)` (the zero-length guard), and
`normalize (3, 4) = (3/5, 4/5)` (the division branch, length 5). -/
theorem vector2_total_normalize_guard_witness :
    (Vector2.mk (0 : ℝ) 0).normalize = ⟨0, 0⟩ ∧
      (Vector2.mk (3 : ℝ) 4).normalize = ⟨3 / 5, 4 / 5⟩ := by
  have h5 : (Vector2.mk (3 : ℝ) 4).length = 5 := by
    rw [Vector2.length]
    rw [show (3 : ℝ) * 3 + 4 * 4 = 5 ^ 2 by norm_num]
    exact Real.sqrt_sq (by norm_num)
  constructor
  · exact (vector2_total_normalize_guard ⟨0, 0⟩ ⟨0, 0⟩ ⟨0, 0⟩ 0).2.2.2.2.2.1
      (by rw [Vector2.length]; simp)
  · rw [(vector2_total_normalize_guard ⟨0, 0⟩ ⟨0, 0⟩ ⟨3, 4⟩ 0).2.2.2.2.2.2
      (by rw [h5]; norm_num), h5]

/-- Auxiliary: the derivative of the cubic `a + b·s + c·s² + d·s³` at `t`
is `b + 2·c·t + 3·d·t²`. -/
theorem hasDerivAt_cubic (a b c d t : ℝ) :
    HasDerivAt (fun s : ℝ => a + b * s + c * s ^ 2 + d * s ^ 3)
      (b + 2 * c * t + 3 * d * t ^ 2) t := by
  have h : HasDerivAt (fun s : ℝ => a + b * s + c * s ^ 2 + d * s ^ 3)
      (0 + b * 1 + c * ((2 : ℕ) * t ^ (2 - 1)) + d * ((3 : ℕ) * t ^ (3 - 1))) t := by
    exact (((hasDerivAt_const t a).add ((hasDerivAt_id t).const_mul b)).add
      ((hasDerivAt_pow 2 t).const_mul c)).add ((hasDerivAt_pow 3 t).const_mul d)
  convert h using 1
  push_cast
  ring

/-- C3: `bezierTangent` is the first derivative of `bezierPoint` with
respect to `t` (componentwise, over `ℝ`), and it equals the weights
`3(1-t)², 6(1-t)t, 3t²` applied to the consecutive control-point
differences `p1-p0`, `p2-p1`, `p3-p2`. -/
theorem bezierTangent_is_derivative (t : ℝ) (p0 p1 p2 p3 : Vector2 ℝ) :
    HasDerivAt (fun s : ℝ => (bezierPoint s p0 p1 p2 p3).x)
        ((bezierTangent t p0 p1 p2 p3).x) t ∧
      HasDerivAt (fun s : ℝ => (bezierPoint s p0 p1 p2 p3).y)
        ((bezierTangent t p0 p1 p2 p3).y) t ∧
      bezierTangent t p0 p1 p2 p3 =
        ⟨3 * (1 - t) ^ 2 * (p1.x - p0.x) + 6 * (1 - t) * t * (p2.x - p1.x)
            + 3 * t ^ 2 * (p3.x - p2.x),
         3 * (1 - t) ^ 2 * (p1.y - p0.y) + 6 * (1 - t) * t * (p2.y - p1.y)
            + 3 * t ^ 2 * (p3.y - p2.y)⟩ := by
  refine ⟨?_, ?_, by ext <;> (simp only [bezierTangent]; ring)⟩
  · have hfun : (fun s : ℝ => (bezierPoint s p0 p1 p2 p3).x) =
        fun s : ℝ => p0.x + 3 * (p1.x - p0.x) * s
          + 3 * (p2.x - 2 * p1.x + p0.x) * s ^ 2
          + (p3.x - 3 * p2.x + 3 * p1.x - p0.x) * s ^ 3 := by
      funext s
      simp only [bezierPoint]
      ring
    have hval : (bezierTangent t p0 p1 p2 p3).x =
        3 * (p1.x - p0.x) + 2 * (3 * (p2.x - 2 * p1.x + p0.x)) * t
          + 3 * (p3.x - 3 * p2.x + 3 * p1.x - p0.x) * t ^ 2 := by
      simp only [bezierTangent]
      ring
    rw [hfun, hval]
    exact hasDerivAt_cubic _ _ _ _ t
  · have hfun : (fun s : ℝ => (bezierPoint s p0 p1 p2 p3).y) =
        fun s : ℝ => p0.y + 3 * (p1.y - p0.y) * s
          + 3 * (p2.y - 2 * p1.y + p0.y) * s ^ 2
          + (p3.y - 3 * p2.y + 3 * p1.y - p0.y) * s ^ 3 := by
      funext s
      simp only [bezierPoint]
      ring
    have hval : (bezierTangent t p0 p1 p2 p3).y =
        3 * (p1.y - p0.y) + 2 * (3 * (p2.y - 2 * p1.y + p0.y)) * t
          + 3 * (p3.y - 3 * p2.y + 3 * p1.y - p0.y) * t ^ 2 := by
      simp only [bezierTangent]
      ring
    rw [hfun, hval]
    exact hasDerivAt_cubic _ _ _ _ t

/-- Iterate `update(1)` (the spec's spring-convergence scenario: fixed
`deltaTime = 1`) `n` times. -/
def springIter (n : ℕ) (s : SpringPoint) : SpringPoint :=
  (fun p => p.update 1)^[n] s

/-- Squared Euclidean distance from a spring point's position to its target
(the square of the spec's "distance to the target"; comparing it with the
square of a nonnegative bound is equivalent to comparing the distance with
the bound). -/
def distSqToTarget (s : SpringPoint) : ℚ :=
  (s.position.x - s.target.x) ^ 2 + (s.position.y - s.target.y) ^ 2

/-- One coordinate of `update(1)` with the default constants, expressed on
the pair `(error, velocity)` where `error = position - target`:
`velocity' = velocity + (error * -0.15 + velocity * -0.85)` and
`error' = error + velocity'`. -/
def stepEV (ev : ℚ × ℚ) : ℚ × ℚ :=
  let v := ev.2 + (ev.1 * -(0.15) + ev.2 * -(0.85))
  (ev.1 + v, v)

/-- Closed form of `stepEV`. -/
theorem stepEV_eq (e v : ℚ) :
    stepEV (e, v) = (0.85 * e + 0.15 * v, 0.15 * v - 0.15 * e) := by
  simp only [stepEV]
  exact Prod.ext (by ring) (by ring)

/-- Invariant of the scalar spring recurrence: the velocity opposes the
error and is no larger than it in magnitude. -/
def goodEV (ev : ℚ × ℚ) : Prop :=
  (0 ≤ ev.1 ∧ -ev.1 ≤ ev.2 ∧ ev.2 ≤ 0) ∨ (ev.1 ≤ 0 ∧ 0 ≤ ev.2 ∧ ev.2 ≤ -ev.1)

/-- The invariant holds initially when the velocity is zero. -/
theorem goodEV_init (e : ℚ) : goodEV (e, 0) := by
  rcases le_total 0 e with h | h
  · exact Or.inl ⟨h, by simpa using h, le_refl 0⟩
  · exact Or.inr ⟨h, le_refl 0, by simpa using h⟩

/-- One scalar step preserves the invariant and contracts the error
magnitude by a factor between `7/10` and `17/20`. -/
theorem goodEV_step (ev : ℚ × ℚ) (h : goodEV ev) :
    goodEV (stepEV ev) ∧
      (7/10) * |ev.1| ≤ |(stepEV ev).1| ∧ |(stepEV ev).1| ≤ (17/20) * |ev.1| := by
  obtain ⟨e, v⟩ := ev
  rw [stepEV_eq]
  rcases h with ⟨he, hv1, hv2⟩ | ⟨he, hv1, hv2⟩
  · simp only [goodEV] at hv1 ⊢
    have h1 : (7/10) * e ≤ 0.85 * e + 0.15 * v := by linarith
    have h2 : 0.85 * e + 0.15 * v ≤ (17/20) * e := by linarith
    have h3 : (0:ℚ) ≤ 0.85 * e + 0.15 * v := by linarith
    have h4 : 0.15 * v - 0.15 * e ≤ 0 := by linarith
    have h5 : -(0.85 * e + 0.15 * v) ≤ 0.15 * v - 0.15 * e := by linarith
    refine ⟨Or.inl ⟨h3, h5, h4⟩, ?_, ?_⟩
    · rw [abs_of_nonneg he, abs_of_nonneg h3]
      exact h1
    · rw [abs_of_nonneg he, abs_of_nonneg h3]
      exact h2
  · simp only [goodEV] at hv2 ⊢
    have h1 : 0.85 * e + 0.15 * v ≤ (7/10) * e := by linarith
    have h2 : (17/20) * e ≤ 0.85 * e + 0.15 * v := by linarith
    have h3 : 0.85 * e + 0.15 * v ≤ (0:ℚ) := by linarith
    have h4 : (0:ℚ) ≤ 0.15 * v - 0.15 * e := by linarith
    have h5 : 0.15 * v - 0.15 * e ≤ -(0.85 * e + 0.15 * v) := by linarith
    refine ⟨Or.inr ⟨h3, h4, h5⟩, ?_, ?_⟩
    · rw [abs_of_nonpos he, abs_of_nonpos h3]
      linarith
    · rw [abs_of_nonpos he, abs_of_nonpos h3]
      linarith

/-- Iterated scalar steps keep the invariant and shrink the error magnitude
geometrically, with matching lower bound `(7/10)^n`. -/
theorem goodEV_iter (e : ℚ) (n : ℕ) :
    goodEV (stepEV^[n] (e, 0)) ∧
      (7/10)^n * |e| ≤ |(stepEV^[n] (e, 0)).1| ∧
      |(stepEV^[n] (e, 0)).1| ≤ (17/20)^n * |e| := by
  induction n with
  | zero => simpa using goodEV_init e
  | succ n ih =>
    obtain ⟨hg, hlo, hhi⟩ := ih
    rw [Function.iterate_succ_apply']
    obtain ⟨hg', hlo', hhi'⟩ := goodEV_step _ hg
    refine ⟨hg', ?_, ?_⟩
    · calc (7/10)^(n+1) * |e| = (7/10) * ((7/10)^n * |e|) := by ring
        _ ≤ (7/10) * |(stepEV^[n] (e, 0)).1| := by
            exact mul_le_mul_of_nonneg_left hlo (by norm_num)
        _ ≤ |(stepEV (stepEV^[n] (e, 0))).1| := hlo'
    · calc |(stepEV (stepEV^[n] (e, 0))).1| ≤ (17/20) * |(stepEV^[n] (e, 0)).1| := hhi'
        _ ≤ (17/20) * ((17/20)^n * |e|) := by
            exact mul_le_mul_of_nonneg_left hhi (by norm_num)
        _ = (17/20)^(n+1) * |e| := by ring

/-- The error magnitude of the scalar recurrence is nonincreasing. -/
theorem goodEV_abs_mono (e : ℚ) (n : ℕ) :
    |(stepEV^[n+1] (e, 0)).1| ≤ |(stepEV^[n] (e, 0)).1| := by
  obtain ⟨hg, _, _⟩ := goodEV_iter e n
  obtain ⟨_, _, hhi⟩ := goodEV_step _ hg
  rw [Function.iterate_succ_apply']
  calc |(stepEV (stepEV^[n] (e, 0))).1| ≤ (17/20) * |(stepEV^[n] (e, 0)).1| := hhi
    _ ≤ |(stepEV^[n] (e, 0)).1| := by
        have := abs_nonneg (stepEV^[n] (e, 0)).1
        linarith

/-- Explicit componentwise form of one non-fixed `update` call. -/
theorem springPoint_update_explicit (s : SpringPoint) (dt : ℚ)
    (h : s.fixed = false) :
    s.update dt = { s with
      velocity := ⟨s.velocity.x + ((s.position.x - s.target.x) * (-s.springConstant)
          + s.velocity.x * (-s.damping)) * dt,
        s.velocity.y + ((s.position.y - s.target.y) * (-s.springConstant)
          + s.velocity.y * (-s.damping)) * dt⟩
      position := ⟨s.position.x + (s.velocity.x + ((s.position.x - s.target.x) * (-s.springConstant)
          + s.velocity.x * (-s.damping)) * dt) * dt,
        s.position.y + (s.velocity.y + ((s.position.y - s.target.y) * (-s.springConstant)
          + s.velocity.y * (-s.damping)) * dt) * dt⟩ } := by
  simp [SpringPoint.update, h, Vector2.subtract, Vector2.multiply, Vector2.add]

/-- Bridge: iterating `update(1)` on a non-fixed point with the default
constants evolves each coordinate of `(position - target, velocity)` by the
scalar recurrence `stepEV`, and leaves target, flag and constants alone. -/
theorem springIter_spec (s : SpringPoint) (hf : s.fixed = false)
    (hk : s.springConstant = 0.15) (hd : s.damping = 0.85) (n : ℕ) :
    (springIter n s).target = s.target ∧
    (springIter n s).fixed = false ∧
    (springIter n s).springConstant = 0.15 ∧
    (springIter n s).damping = 0.85 ∧
    ((springIter n s).position.x - s.target.x, (springIter n s).velocity.x)
      = stepEV^[n] (s.position.x - s.target.x, s.velocity.x) ∧
    ((springIter n s).position.y - s.target.y, (springIter n s).velocity.y)
      = stepEV^[n] (s.position.y - s.target.y, s.velocity.y) := by
  induction n with
  | zero => exact ⟨rfl, hf, hk, hd, rfl, rfl⟩
  | succ n ih =>
    obtain ⟨ht, hf', hk', hd', hx, hy⟩ := ih
    have hstep : springIter (n+1) s = (springIter n s).update 1 := by
      simp [springIter, Function.iterate_succ_apply']
    rw [hstep, springPoint_update_explicit (springIter n s) 1 hf']
    refine ⟨ht, hf', hk', hd', ?_, ?_⟩
    · rw [Function.iterate_succ_apply', ← hx]
      refine Prod.ext ?_ ?_ <;>
        (simp only [stepEV, ht, hk', hd']; ring)
    · rw [Function.iterate_succ_apply', ← hy]
      refine Prod.ext ?_ ?_ <;>
        (simp only [stepEV, ht, hk', hd']; ring)

/-- The spec's convergence scenario: a freshly constructed non-fixed
`SpringPoint` at `(x0, y0)` whose target is then set to the constant
`(tx, ty)`; its velocity is zero and its constants are the defaults. -/
def springScenario (x0 y0 tx ty : ℚ) : SpringPoint :=
  (mkSpringPoint x0 y0 false).setTarget tx ty

/-- The squared target distance along the scenario run, in terms of the
scalar recurrence. -/
theorem springScenario_distSq (x0 y0 tx ty : ℚ) (n : ℕ) :
    distSqToTarget (springIter n (springScenario x0 y0 tx ty)) =
      ((stepEV^[n] (x0 - tx, 0)).1) ^ 2 + ((stepEV^[n] (y0 - ty, 0)).1) ^ 2 := by
  obtain ⟨ht, -, -, -, hx, hy⟩ := springIter_spec (springScenario x0 y0 tx ty)
    rfl rfl rfl n
  have hx1 : (springIter n (springScenario x0 y0 tx ty)).position.x - tx
      = (stepEV^[n] (x0 - tx, 0)).1 := by
    simpa [springScenario, mkSpringPoint, SpringPoint.setTarget]
      using congrArg Prod.fst hx
  have hy1 : (springIter n (springScenario x0 y0 tx ty)).position.y - ty
      = (stepEV^[n] (y0 - ty, 0)).1 := by
    simpa [springScenario, mkSpringPoint, SpringPoint.setTarget]
      using congrArg Prod.fst hy
  have htgt : (springIter n (springScenario x0 y0 tx ty)).target = ⟨tx, ty⟩ := by
    simpa [springScenario, mkSpringPoint, SpringPoint.setTarget] using ht
  simp only [distSqToTarget, htgt]
  rw [hx1, hy1]

/-- Squares are monotone through absolute-value bounds. -/
theorem abs_sq_le (a b : ℚ) (h : |a| ≤ b) : a ^ 2 ≤ b ^ 2 := by
  have hb := pow_le_pow_left₀ (abs_nonneg a) h 2
  rwa [sq_abs] at hb

/-- C9 amended: for the convergence scenario (non-fixed point, default
constants `0.15`/`0.85`, constant target, zero initial velocity, fixed
`deltaTime = 1`), provided the initial distance to the target is at most
`10^6` per coordinate, the squared distance to the target (i) stays bounded
by its initial value at every step, (ii) is monotonically nonincreasing,
(iii) decays at least geometrically with ratio `17/20` per step, and (iv)
is below `(10^-3)^2` from step 500 on. -/
theorem spring_convergence_amended (x0 y0 tx ty : ℚ)
    (hx : |x0 - tx| ≤ 10 ^ 6) (hy : |y0 - ty| ≤ 10 ^ 6) :
    (∀ n : ℕ, distSqToTarget (springIter n (springScenario x0 y0 tx ty))
        ≤ distSqToTarget (springScenario x0 y0 tx ty)) ∧
    (∀ n : ℕ, distSqToTarget (springIter (n + 1) (springScenario x0 y0 tx ty))
        ≤ distSqToTarget (springIter n (springScenario x0 y0 tx ty))) ∧
    (∀ n : ℕ, distSqToTarget (springIter n (springScenario x0 y0 tx ty))
        ≤ ((17/20) ^ n) ^ 2 * distSqToTarget (springScenario x0 y0 tx ty)) ∧
    (∀ n : ℕ, 500 ≤ n →
        distSqToTarget (springIter n (springScenario x0 y0 tx ty)) < (1/1000) ^ 2) := by
  have hdist0 : distSqToTarget (springScenario x0 y0 tx ty)
      = (x0 - tx) ^ 2 + (y0 - ty) ^ 2 := by
    simpa using springScenario_distSq x0 y0 tx ty 0
  have hd0nn : 0 ≤ distSqToTarget (springScenario x0 y0 tx ty) := by
    rw [hdist0]; positivity
  have hdecay : ∀ n : ℕ, distSqToTarget (springIter n (springScenario x0 y0 tx ty))
      ≤ ((17/20) ^ n) ^ 2 * distSqToTarget (springScenario x0 y0 tx ty) := by
    intro n
    rw [springScenario_distSq, hdist0, mul_add]
    have h1 : ((stepEV^[n] (x0 - tx, 0)).1) ^ 2 ≤ ((17/20) ^ n) ^ 2 * (x0 - tx) ^ 2 := by
      have h := abs_sq_le _ _ (goodEV_iter (x0 - tx) n).2.2
      calc ((stepEV^[n] (x0 - tx, 0)).1) ^ 2 ≤ ((17/20) ^ n * |x0 - tx|) ^ 2 := h
        _ = ((17/20) ^ n) ^ 2 * (x0 - tx) ^ 2 := by rw [mul_pow, sq_abs]
    have h2 : ((stepEV^[n] (y0 - ty, 0)).1) ^ 2 ≤ ((17/20) ^ n) ^ 2 * (y0 - ty) ^ 2 := by
      have h := abs_sq_le _ _ (goodEV_iter (y0 - ty) n).2.2
      calc ((stepEV^[n] (y0 - ty, 0)).1) ^ 2 ≤ ((17/20) ^ n * |y0 - ty|) ^ 2 := h
        _ = ((17/20) ^ n) ^ 2 * (y0 - ty) ^ 2 := by rw [mul_pow, sq_abs]
    exact add_le_add h1 h2
  refine ⟨?_, ?_, hdecay, ?_⟩
  · intro n
    have hc : ((17/20 : ℚ) ^ n) ^ 2 ≤ 1 := by
      have h1 : (17/20 : ℚ) ^ n ≤ 1 := pow_le_one₀ (by norm_num) (by norm_num)
      have h2 : (0:ℚ) ≤ (17/20 : ℚ) ^ n := by positivity
      nlinarith
    calc distSqToTarget (springIter n (springScenario x0 y0 tx ty))
        ≤ ((17/20) ^ n) ^ 2 * distSqToTarget (springScenario x0 y0 tx ty) := hdecay n
      _ ≤ 1 * distSqToTarget (springScenario x0 y0 tx ty) :=
          mul_le_mul_of_nonneg_right hc hd0nn
      _ = distSqToTarget (springScenario x0 y0 tx ty) := one_mul _
  · intro n
    rw [springScenario_distSq, springScenario_distSq]
    have h1 : ((stepEV^[n + 1] (x0 - tx, 0)).1) ^ 2 ≤ ((stepEV^[n] (x0 - tx, 0)).1) ^ 2 := by
      have h := abs_sq_le _ _ (goodEV_abs_mono (x0 - tx) n)
      rwa [sq_abs] at h
    have h2 : ((stepEV^[n + 1] (y0 - ty, 0)).1) ^ 2 ≤ ((stepEV^[n] (y0 - ty, 0)).1) ^ 2 := by
      have h := abs_sq_le _ _ (goodEV_abs_mono (y0 - ty) n)
      rwa [sq_abs] at h
    exact add_le_add h1 h2
  · intro n hn
    have hpow_n : (17/20 : ℚ) ^ n ≤ (17/20) ^ 500 :=
      pow_le_pow_of_le_one (by norm_num) (by norm_num) hn
    have h500 : (17/20 : ℚ) ^ 500 ≤ (1/2) ^ 100 := by
      calc (17/20 : ℚ) ^ 500 = ((17/20) ^ 5) ^ 100 := by rw [← pow_mul]
        _ ≤ (1/2) ^ 100 := pow_le_pow_left₀ (by positivity) (by norm_num) 100
    have hcC : ((17/20 : ℚ) ^ n) ^ 2 ≤ ((1/2 : ℚ) ^ 100) ^ 2 := by
      have h := le_trans hpow_n h500
      exact pow_le_pow_left₀ (by positivity) h 2
    have hd0 : distSqToTarget (springScenario x0 y0 tx ty) ≤ 2 * (10 ^ 6) ^ 2 := by
      rw [hdist0]
      have ha := abs_sq_le _ _ hx
      have hb := abs_sq_le _ _ hy
      linarith
    calc distSqToTarget (springIter n (springScenario x0 y0 tx ty))
        ≤ ((17/20) ^ n) ^ 2 * distSqToTarget (springScenario x0 y0 tx ty) := hdecay n
      _ ≤ ((1/2 : ℚ) ^ 100) ^ 2 * (2 * (10 ^ 6) ^ 2) :=
          mul_le_mul hcC hd0 hd0nn (by positivity)
      _ < (1/1000) ^ 2 := by norm_num

/-- Witness for C9 (amended) at the concrete scenario starting at
`(100, 0)` with target `(0, 0)`: by step 500 the squared distance is below
`(10^-3)^2`. -/
theorem spring_convergence_amended_witness :
    |(100 : ℚ) - 0| ≤ 10 ^ 6 ∧ |(0 : ℚ) - 0| ≤ 10 ^ 6 ∧
      distSqToTarget (springIter 500 (springScenario 100 0 0 0)) < (1/1000) ^ 2 :=
  ⟨by norm_num, by norm_num,
    (spring_convergence_amended 100 0 0 0 (by norm_num) (by norm_num)).2.2.2
      500 (le_refl 500)⟩

/-- C9 counterexample: the claim's absolute "below `10^-3` after at most
500 steps" fails for a large initial displacement: starting at
`(10^80, 0)` with target `(0, 0)` (constant target, zero initial velocity,
default constants, `deltaTime = 1`), the squared distance to the target
after 500 steps is still above `(10^-3)^2`, because each step shrinks the
distance by no more than the factor `7/10`. -/
theorem spring_convergence_cex :
    (1/1000 : ℚ) ^ 2 <
      distSqToTarget (springIter 500 (springScenario (10 ^ 80) 0 0 0)) := by
  have hd := springScenario_distSq ((10:ℚ) ^ 80) 0 0 0 500
  have hlo := (goodEV_iter ((10:ℚ) ^ 80 - 0) 500).2.1
  have he0 : |(10:ℚ) ^ 80 - 0| = 10 ^ 80 := by
    rw [sub_zero]
    exact abs_of_nonneg (by positivity)
  rw [he0] at hlo
  have hbig : (1/1000 : ℚ) < (7/10) ^ 500 * 10 ^ 80 := by
    have h2 : (7/10 : ℚ) ^ 500 = ((7/10) ^ 5) ^ 100 := by rw [← pow_mul]
    have h1 : ((1:ℚ)/6) ^ 100 ≤ ((7/10 : ℚ) ^ 5) ^ 100 :=
      pow_le_pow_left₀ (by norm_num) (by norm_num) 100
    calc (1/1000 : ℚ) < (1/6) ^ 100 * 10 ^ 80 := by norm_num
      _ ≤ ((7/10) ^ 5) ^ 100 * 10 ^ 80 :=
          mul_le_mul_of_nonneg_right h1 (by positivity)
      _ = (7/10) ^ 500 * 10 ^ 80 := by rw [← h2]
  have hsq : ((7/10 : ℚ) ^ 500 * 10 ^ 80) ^ 2
      ≤ ((stepEV^[500] ((10:ℚ) ^ 80 - 0, 0)).1) ^ 2 := by
    have h := pow_le_pow_left₀ (by positivity) hlo 2
    rwa [sq_abs] at h
  have hstrict : (1/1000 : ℚ) ^ 2 < ((7/10 : ℚ) ^ 500 * 10 ^ 80) ^ 2 := by
    have h0 : (0:ℚ) < 1/1000 := by norm_num
    nlinarith
  have hey : (0:ℚ) ≤ ((stepEV^[500] ((0:ℚ) - 0, 0)).1) ^ 2 := sq_nonneg _
  rw [hd]
  calc (1/1000 : ℚ) ^ 2 < ((7/10 : ℚ) ^ 500 * 10 ^ 80) ^ 2 := hstrict
    _ ≤ ((stepEV^[500] ((10:ℚ) ^ 80 - 0, 0)).1) ^ 2 := hsq
    _ ≤ ((stepEV^[500] ((10:ℚ) ^ 80 - 0, 0)).1) ^ 2
        + ((stepEV^[500] ((0:ℚ) - 0, 0)).1) ^ 2 := le_add_of_nonneg_right hey
